import Mathlib

/-!
Shallow embedding of `contract_utils.py` from the
smart-contract-address-collector repository, together with theorems settling
the specification claims about it.

Modelling conventions:
* Decoded contract-call values are dynamically typed; the two shapes the code
  actually handles are strings (addresses, names, the sentinel) and naturals
  (`allPairsLength`), modelled by `Value`.
* The external web3 call client is an environment `Env` mapping
  (contract address, function name, arguments) to either a decoded value or a
  `Web3Exception` (modelled as `Except Unit`).
* Every remote call attempt is recorded in a trace (`List CallRec`) so that
  "zero network calls were made" is expressible.
* `asyncio.gather` returns results in argument order; completion order is
  modelled separately by `runSched`, an operational model in which tasks
  finish in an arbitrary schedule and deposit results into their own slot.
* Python exceptions escaping a pipeline function are modelled with
  `Except PyErr`; `PyErr.web3Error` exists to express that a raw
  Web3Exception never escapes.
-/

/-- Dynamically typed values flowing through the pipeline: decoded contract
call results are either strings (addresses, names, the sentinel) or naturals
(pair counts). -/
inductive Value where
  | str : String → Value
  | nat : Nat → Value
deriving DecidableEq

/-- One observed remote call: contract address, function name, arguments. -/
abbrev CallRec := Value × String × List Value

/-- The external contract call client capability: given a contract address, a
function name and arguments, it yields a decoded value or fails with a
Web3Exception (carried data irrelevant, modelled as `Except Unit`). -/
abbrev Env := Value → String → List Value → Except Unit Value

/-- Python-level exceptions that can escape the pipeline functions:
`ValueError` (configuration error), `TypeError` (e.g. `range` applied to a
string), and a raw Web3Exception escaping undegraded. -/
inductive PyErr where
  | valueError : String → PyErr
  | typeError : String → PyErr
  | web3Error : PyErr
deriving DecidableEq

instance {ε α : Type} [DecidableEq ε] [DecidableEq α] : DecidableEq (Except ε α) :=
  fun x y =>
    match x, y with
    | .ok a, .ok b => decidable_of_iff (a = b) (by simp)
    | .error a, .error b => decidable_of_iff (a = b) (by simp)
    | .ok _, .error _ => isFalse (fun h => Except.noConfusion h)
    | .error _, .ok _ => isFalse (fun h => Except.noConfusion h)

/-- `ETHContractFunctions`: one bound contract instance (address plus ABI);
the ABI never influences control flow in the source, so only the address is
kept. -/
structure ETHContractFunctions where
  address : Value
deriving DecidableEq

/-- `ETHContractFunctions.__call__` (src/contract_utils.py lines 41-45):
forward the named function to the call client; on `Web3Exception` return the
sentinel string "NotFound" instead of propagating. `__getattr__` (lines 47-48)
routes every attribute access, whatever the name, into this method. -/
def ETHContractFunctions.call (env : Env) (c : ETHContractFunctions)
    (function_name : String) (args : List Value) : Value :=
  match env c.address function_name args with
  | .ok v => v
  | .error _ => .str "NotFound"

/-- `AsyncBatchProcessor` state (lines 8-13): the configured limit and the
pending queue. The source's three parallel lists `func` / `args` / `kwargs`
are always pushed and cleared in lockstep, so they are modelled as one list
of task descriptors of abstract type `τ`. -/
structure AsyncBatchProcessor (τ : Type) where
  limit : Nat
  func : List τ
deriving DecidableEq

/-- `AsyncBatchProcessor.process_tasks` (lines 23-34): on an empty queue a
bare `return` yields `None` (here `none`); otherwise all queued tasks are
started, the queue is cleared, and `asyncio.gather` returns their results in
submission order. Task execution is the abstract `exec`. -/
def AsyncBatchProcessor.process_tasks {τ ρ : Type} (exec : τ → ρ)
    (s : AsyncBatchProcessor τ) : AsyncBatchProcessor τ × Option (List ρ) :=
  if s.func.isEmpty then (s, none)
  else ({ s with func := [] }, some (s.func.map exec))

/-- `AsyncBatchProcessor.add_task` (lines 15-21): append the task; if the
queue length now reaches the limit, flush immediately and return the flush
result, otherwise return `None`. -/
def AsyncBatchProcessor.add_task {τ ρ : Type} (exec : τ → ρ)
    (s : AsyncBatchProcessor τ) (t : τ) :
    AsyncBatchProcessor τ × Option (List ρ) :=
  let s1 : AsyncBatchProcessor τ := { s with func := s.func ++ [t] }
  if s.limit ≤ s1.func.length then s1.process_tasks exec else (s1, none)

/-- Driver: submit the given tasks one at a time via `add_task`, collecting
the batches returned by auto-flushes in order. Models the submission loop of
`async_get_pairs` (lines 178-182). -/
def runSubmissions {τ ρ : Type} (exec : τ → ρ) :
    AsyncBatchProcessor τ → List τ → AsyncBatchProcessor τ × List (List ρ)
  | s, [] => (s, [])
  | s, t :: ts =>
    match s.add_task exec t with
    | (s1, none) => runSubmissions exec s1 ts
    | (s1, some rs) =>
      let rest := runSubmissions exec s1 ts
      (rest.1, rs :: rest.2)

/-- Operational model of `asyncio.gather`'s result collection: tasks complete
in an arbitrary schedule (a list of task indices in completion order) and
each deposits its result into its own slot; the slots are read out in
submission order at the end. -/
def runSched {ρ : Type} (results : List ρ) :
    List Nat → List (Option ρ) → List (Option ρ)
  | [], slots => slots
  | i :: rest, slots =>
    runSched results rest
      (match results[i]? with
       | some v => slots.set i (some v)
       | none => slots)

/-- `asyncio.gather`'s exception behaviour: if any awaited coroutine raised,
the gather raises; otherwise the list of results is produced. -/
def gatherE {α : Type} : List (Except PyErr α) → Except PyErr (List α)
  | [] => .ok []
  | .error e :: _ => .error e
  | .ok a :: rest => (gatherE rest).map (fun l => a :: l)

/-- One proxied remote call through a freshly bound `ETHContractFunctions`,
recording the call attempt in the trace. -/
def proxyCall (env : Env) (address : Value) (function_name : String)
    (args : List Value) : Value × List CallRec :=
  (ETHContractFunctions.call env { address := address } function_name args,
   [(address, function_name, args)])

/-- `Contract.async_get_token_info` (lines 122-124): bind a token contract at
the given address and invoke `name` through the proxy. -/
def async_get_token_info (env : Env) (token_address : Value) :
    Value × List CallRec :=
  proxyCall env token_address "name" []

/-- Intermediate result of `async_get_pair_info`. -/
structure PairInfo where
  pair_name : Value
  token0 : Value
  token1 : Value
deriving DecidableEq

/-- `Contract.async_get_pair_info` (lines 129-137): bind a pair contract and
gather `name`, `token0`, `token1` through the proxy. -/
def async_get_pair_info (env : Env) (pair_address : Value) :
    PairInfo × List CallRec :=
  let n := proxyCall env pair_address "name" []
  let t0 := proxyCall env pair_address "token0" []
  let t1 := proxyCall env pair_address "token1" []
  ({ pair_name := n.1, token0 := t0.1, token1 := t1.1 }, n.2 ++ t0.2 ++ t1.2)

/-- The six-field record assembled by `async_get_pair_by_index`
(lines 158-165). -/
structure PairRecord where
  pair_address : Value
  pair_name : Value
  token0_address : Value
  token0_name : Value
  token1_address : Value
  token1_name : Value
deriving DecidableEq

/-- The body of `async_get_pair_by_index` after configuration checks
(lines 154-165): `allPairs(uint)` on the factory, then pair info, then the
two token names, assembled into a `PairRecord`. -/
def buildPairRecord (env : Env) (factory_contract : ETHContractFunctions)
    (uint : Value) : PairRecord × List CallRec :=
  let pa := proxyCall env factory_contract.address "allPairs" [uint]
  let info := async_get_pair_info env pa.1
  let tn0 := async_get_token_info env info.1.token0
  let tn1 := async_get_token_info env info.1.token1
  ({ pair_address := pa.1, pair_name := info.1.pair_name,
     token0_address := info.1.token0, token0_name := tn0.1,
     token1_address := info.1.token1, token1_name := tn1.1 },
   pa.2 ++ info.2 ++ tn0.2 ++ tn1.2)

/-- `Contract.async_get_pair_by_index` (lines 142-165): raise `ValueError`
when neither a factory handle nor a factory address is supplied (before any
remote call); otherwise bind the factory if needed and build the record. -/
def async_get_pair_by_index (env : Env)
    (factory_contract : Option ETHContractFunctions) (uint : Value)
    (factory_address : Option Value) :
    Except PyErr PairRecord × List CallRec :=
  if factory_contract.isNone && factory_address.isNone then
    (.error (.valueError
      "Either pair_factory_contract or pair_factory_address must be set"), [])
  else
    let fc : ETHContractFunctions :=
      match factory_contract with
      | some c => c
      | none => { address := factory_address.getD (.str "") }
    let r := buildPairRecord env fc uint
    (.ok r.1, r.2)

/-- Observable outcome of one `async_get_pairs` run: the accumulated table
rows (or the escaping exception), the trace of remote calls, the sizes of the
auto-flush batches (in flush order, as printed by the source), and the number
of records handled by the final explicit flush (0 when it found an empty
queue and processed nothing). -/
structure PairsOutcome where
  result : Except PyErr (List PairRecord)
  trace : List CallRec
  autoFlushes : List Nat
  finalFlush : Nat
deriving DecidableEq

/-- `Contract.async_get_pairs` (lines 174-185): one preliminary
`allPairsLength` call through the proxy; `range` over the result raises
`TypeError` when the proxy degraded a failure to the string sentinel;
otherwise each index 0..N-1 is submitted as a task, auto-flush batches are
appended to the table in flush order, and a final explicit flush drains the
remainder. -/
def async_get_pairs (env : Env) (factory_address : Value) (limit : Nat) :
    PairsOutcome :=
  let contract_functions : ETHContractFunctions := { address := factory_address }
  let pl := proxyCall env factory_address "allPairsLength" []
  match pl.1 with
  | .str _ =>
    { result := .error (.typeError "str object cannot be interpreted as an integer"),
      trace := pl.2, autoFlushes := [], finalFlush := 0 }
  | .nat pairs_length =>
    let exec := fun i =>
      async_get_pair_by_index env (some contract_functions) (.nat i) none
    let run := runSubmissions exec { limit := limit, func := [] }
        (List.range pairs_length)
    let fin := run.1.process_tasks exec
    let finalBatch := fin.2.getD []
    let allResults := run.2.flatten ++ finalBatch
    { result := gatherE (allResults.map Prod.fst),
      trace := pl.2 ++ (allResults.map Prod.snd).flatten,
      autoFlushes := run.2.map List.length,
      finalFlush := finalBatch.length }

/-- A call client on which every operation succeeds deterministically and the
factory reports `n` pairs; used for concrete end-to-end scenarios. -/
def sampleEnv (n : Nat) : Env := fun _addr fname _args =>
  if fname = "allPairsLength" then .ok (.nat n)
  else if fname = "allPairs" then .ok (.str "P")
  else if fname = "name" then .ok (.str "N")
  else if fname = "token0" then .ok (.str "T0")
  else if fname = "token1" then .ok (.str "T1")
  else .error ()

/-- A fully successful call client for one factory "F" owning one pair "P0"
with tokens "T0" and "T1". -/
def envOk : Env := fun addr fname _args =>
  if fname = "allPairs" then .ok (.str "P0")
  else if addr = .str "P0" && fname = "name" then .ok (.str "PairName")
  else if addr = .str "P0" && fname = "token0" then .ok (.str "T0")
  else if addr = .str "P0" && fname = "token1" then .ok (.str "T1")
  else if addr = .str "T0" && fname = "name" then .ok (.str "TokenZero")
  else if addr = .str "T1" && fname = "name" then .ok (.str "TokenOne")
  else .error ()

/-- Exactly `envOk`, except that the single call `token0()` on pair "P0"
fails remotely. -/
def envT0Fail : Env := fun addr fname args =>
  if addr = .str "P0" && fname = "token0" then .error ()
  else envOk addr fname args

/-- A call client on which every remote call fails. -/
def envFacFail : Env := fun _addr _fname _args => .error ()

/-- Point update of a call client: the single operation `fname` on contract
`a` fails remotely, everything else is as in `env`. -/
def envFailAt (env : Env) (a : Value) (fname : String) : Env :=
  fun x g args => if x = a && g = fname then .error () else env x g args

/-! Helper lemmas about the batch executor. -/

lemma process_tasks_empty {τ ρ : Type} (exec : τ → ρ) (s : AsyncBatchProcessor τ)
    (h : s.func = []) : s.process_tasks exec = (s, none) := by
  simp [AsyncBatchProcessor.process_tasks, h]

lemma process_tasks_nonempty {τ ρ : Type} (exec : τ → ρ) (s : AsyncBatchProcessor τ)
    (h : s.func ≠ []) :
    s.process_tasks exec = ({ s with func := [] }, some (s.func.map exec)) := by
  rw [AsyncBatchProcessor.process_tasks, if_neg]
  simpa [List.isEmpty_iff] using h

lemma add_task_below {τ ρ : Type} (exec : τ → ρ) (s : AsyncBatchProcessor τ) (t : τ)
    (h : s.func.length + 1 < s.limit) :
    s.add_task exec t = ({ s with func := s.func ++ [t] }, none) := by
  have hn : ¬ s.limit ≤ s.func.length + 1 := by omega
  simp [AsyncBatchProcessor.add_task, hn]

lemma add_task_flush {τ ρ : Type} (exec : τ → ρ) (s : AsyncBatchProcessor τ) (t : τ)
    (h : s.limit ≤ s.func.length + 1) :
    s.add_task exec t = ({ s with func := [] }, some ((s.func ++ [t]).map exec)) := by
  have hne : s.func ++ [t] ≠ [] := by simp
  simp [AsyncBatchProcessor.add_task, h, AsyncBatchProcessor.process_tasks,
    List.isEmpty_iff, hne]

lemma runSubmissions_spec {τ ρ : Type} (exec : τ → ρ) (L : Nat) (hL : 1 ≤ L)
    (ts : List τ) : ∀ pend : List τ, pend.length < L →
    (runSubmissions exec { limit := L, func := pend } ts).1.limit = L ∧
    (runSubmissions exec { limit := L, func := pend } ts).1.func.length
      = (pend.length + ts.length) % L ∧
    (runSubmissions exec { limit := L, func := pend } ts).2.length
      = (pend.length + ts.length) / L ∧
    ∀ b ∈ (runSubmissions exec { limit := L, func := pend } ts).2, b.length = L := by
  induction ts with
  | nil =>
    intro pend hp
    refine ⟨rfl, ?_, ?_, ?_⟩ <;>
      simp [runSubmissions, Nat.mod_eq_of_lt hp, Nat.div_eq_of_lt hp]
  | cons t ts ih =>
    intro pend hp
    by_cases hc : L ≤ pend.length + 1
    · have hflush : ({ limit := L, func := pend } :
          AsyncBatchProcessor τ).limit ≤ pend.length + 1 := hc
      simp only [runSubmissions, add_task_flush exec _ t hflush]
      have hnil : ([] : List τ).length < L := by simpa using hL
      obtain ⟨h1, h2, h3, h4⟩ := ih [] hnil
      refine ⟨h1, ?_, ?_, ?_⟩
      · simpa [Nat.add_comm, Nat.add_left_comm,
          show pend.length + (ts.length + 1) = L + ts.length by omega,
          Nat.add_mod_left] using h2
      · simp only [List.length_cons, h3]
        have : pend.length + (ts.length + 1) = L + ts.length := by omega
        simp [this, Nat.add_div_left _ (show 0 < L by omega)]
      · intro b hb
        rcases List.mem_cons.mp hb with hb | hb
        · subst hb
          simp only [List.length_map, List.length_append, List.length_cons,
            List.length_nil]
          omega
        · exact h4 b hb
    · have hbelow : (({ limit := L, func := pend } :
          AsyncBatchProcessor τ)).func.length + 1
            < ({ limit := L, func := pend } : AsyncBatchProcessor τ).limit := by
        simpa using Nat.lt_of_not_le hc
      simp only [runSubmissions, add_task_below exec _ t hbelow]
      have hp1 : (pend ++ [t]).length < L := by
        simp only [List.length_append, List.length_cons, List.length_nil]
        omega
      obtain ⟨h1, h2, h3, h4⟩ := ih (pend ++ [t]) hp1
      refine ⟨h1, ?_, ?_, h4⟩
      · simpa [show pend.length + 1 + ts.length = pend.length + (ts.length + 1) by omega]
          using h2
      · simpa [show pend.length + 1 + ts.length = pend.length + (ts.length + 1) by omega]
          using h3

lemma runSubmissions_join {τ ρ : Type} (exec : τ → ρ) (L : Nat) (ts : List τ) :
    ∀ pend : List τ,
      (runSubmissions exec { limit := L, func := pend } ts).2.flatten ++
        (((runSubmissions exec { limit := L, func := pend } ts).1).process_tasks
          exec).2.getD []
      = (pend ++ ts).map exec := by
  induction ts with
  | nil =>
    intro pend
    by_cases h : pend = []
    · subst h
      have he := process_tasks_empty (ρ := ρ) exec
        ({ limit := L, func := [] } : AsyncBatchProcessor τ) rfl
      simp [runSubmissions, he]
    · have : ({ limit := L, func := pend } : AsyncBatchProcessor τ).func ≠ [] := h
      simp [runSubmissions, process_tasks_nonempty exec _ this]
  | cons t ts ih =>
    intro pend
    by_cases hc : L ≤ pend.length + 1
    · have hflush : ({ limit := L, func := pend } :
          AsyncBatchProcessor τ).limit ≤ pend.length + 1 := hc
      simp only [runSubmissions, add_task_flush exec _ t hflush]
      have hrest := ih []
      simp only [List.nil_append] at hrest
      simp [hrest, List.map_append]
    · have hbelow : (({ limit := L, func := pend } :
          AsyncBatchProcessor τ)).func.length + 1
            < ({ limit := L, func := pend } : AsyncBatchProcessor τ).limit :=
        Nat.lt_of_not_le hc
      simp only [runSubmissions, add_task_below exec _ t hbelow]
      simpa using ih (pend ++ [t])

lemma runSched_length {ρ : Type} (results : List ρ) (sched : List Nat) :
    ∀ slots : List (Option ρ), (runSched results sched slots).length = slots.length := by
  induction sched with
  | nil => intro slots; rfl
  | cons i rest ih =>
    intro slots
    rw [runSched]
    rcases h : results[i]? with _ | v <;> simp [h, ih]

lemma runSched_getElem {ρ : Type} (results : List ρ) (sched : List Nat) :
    ∀ slots : List (Option ρ), slots.length = results.length →
      ∀ j, j < results.length →
        (runSched results sched slots)[j]? =
          if j ∈ sched then results[j]?.map some else slots[j]? := by
  induction sched with
  | nil => intro slots _ j _; simp [runSched]
  | cons i rest ih =>
    intro slots hlen j hj
    rw [runSched]
    rcases hri : results[i]? with _ | v
    · have hi : results.length ≤ i := List.getElem?_eq_none_iff.mp hri
      rw [ih slots hlen j hj]
      have hji : j ≠ i := by omega
      simp [List.mem_cons, hji]
    · have hlen' : (slots.set i (some v)).length = results.length := by
        simp [hlen]
      rw [ih _ hlen' j hj]
      by_cases hjr : j ∈ rest
      · simp [List.mem_cons, hjr]
      · by_cases hji : j = i
        · subst hji
          have hjs : j < slots.length := by omega
          simp [List.mem_cons, hjr, List.getElem?_set_self hjs, hri]
        · simp [List.mem_cons, hjr, hji, List.getElem?_set_ne (Ne.symm hji)]

lemma runSched_complete {ρ : Type} (results : List ρ) (sched : List Nat)
    (hcov : ∀ j, j < results.length → j ∈ sched) :
    runSched results sched (List.replicate results.length none)
      = results.map some := by
  have hlen0 : (List.replicate results.length (none : Option ρ)).length
      = results.length := by simp
  apply List.ext_getElem?
  intro j
  by_cases hj : j < results.length
  · rw [runSched_getElem results sched _ hlen0 j hj, if_pos (hcov j hj)]
    simp
  · have hlenr : results.length ≤ j := by omega
    have h1 : (runSched results sched
        (List.replicate results.length (none : Option ρ))).length ≤ j := by
      rw [runSched_length]
      simpa using hlenr
    rw [List.getElem?_eq_none h1, List.getElem?_eq_none (by simpa using hlenr)]

lemma gatherE_map_ok {α β : Type} (f : α → β) (l : List α) :
    gatherE (l.map (fun a => Except.ok (f a))) = .ok (l.map f) := by
  induction l with
  | nil => rfl
  | cons a l ih => simp [gatherE, ih, Except.map]

lemma ceil_div_split (K L : Nat) (hL : 1 ≤ L) :
    K / L + (if K % L = 0 then 0 else 1) = (K + L - 1) / L := by
  have hK := Nat.div_add_mod K L
  rcases Nat.eq_zero_or_pos (K % L) with h | h
  · have h1 : K + L - 1 = (L - 1) + L * (K / L) := by omega
    rw [h, if_pos rfl, h1, Nat.add_mul_div_left _ _ (show 0 < L by omega),
      Nat.div_eq_of_lt (show L - 1 < L by omega)]
    omega
  · have hr : K % L < L := Nat.mod_lt _ (by omega)
    have hmul : L * (K / L + 1) = L * (K / L) + L := by ring
    have h1 : K + L - 1 = (K % L - 1) + L * (K / L + 1) := by omega
    rw [if_neg (by omega), h1, Nat.add_mul_div_left _ _ (show 0 < L by omega),
      Nat.div_eq_of_lt (show K % L - 1 < L by omega)]
    omega

lemma async_get_pair_by_index_some (env : Env) (fc : ETHContractFunctions)
    (u : Value) (fa : Option Value) :
    async_get_pair_by_index env (some fc) u fa
      = (.ok (buildPairRecord env fc u).1, (buildPairRecord env fc u).2) := rfl

/-! Claim theorems. -/

/-- C2: a RemoteCallProxy invocation with any operation name and arguments
returns the decoded value unchanged when the underlying remote call
succeeds, and returns the sentinel string "NotFound" instead of raising when
the underlying call fails; the model is a total pure function, so repeated
invocations against a failing operation always yield the sentinel. -/
theorem C2_proxy_degradation (env : Env) (c : ETHContractFunctions)
    (function_name : String) (args : List Value) :
    (∀ v, env c.address function_name args = .ok v →
      c.call env function_name args = v) ∧
    (∀ e, env c.address function_name args = .error e →
      c.call env function_name args = .str "NotFound") := by
  constructor
  · intro v hv
    simp [ETHContractFunctions.call, hv]
  · intro e he
    simp [ETHContractFunctions.call, he]

theorem C2_proxy_degradation_witness :
    ETHContractFunctions.call envOk { address := .str "T0" } "name" []
        = .str "TokenZero" ∧
    ETHContractFunctions.call envFacFail { address := .str "F" } "name" []
        = .str "NotFound" :=
  ⟨(C2_proxy_degradation envOk { address := .str "T0" } "name" []).1 _ rfl,
   (C2_proxy_degradation envFacFail { address := .str "F" } "name" []).2 () rfl⟩

/-- C6: calling async_get_pair_by_index with neither a bound factory handle
nor a factory address fails with the configuration ValueError and makes zero
remote calls (the trace is empty). -/
theorem C6_config_error (env : Env) (uint : Value) :
    async_get_pair_by_index env none uint none
      = (.error (.valueError
          "Either pair_factory_contract or pair_factory_address must be set"),
         ([] : List CallRec)) := rfl

/-- C7 counterexample: flushing an empty queue does not return an empty
result sequence as the claim states; the bare `return` in process_tasks
yields Python None (modelled `none`), which is not the empty sequence. -/
theorem C7_counterexample :
    (AsyncBatchProcessor.process_tasks (fun n : Nat => n)
        { limit := 5, func := [] }).2 = none ∧
    (none : Option (List Nat)) ≠ some [] := by
  exact ⟨rfl, by decide⟩

/-- C7 amended: flushing an empty pending queue returns no result sequence
(Python None rather than an empty sequence) and leaves the executor state
unchanged, starting no tasks. -/
theorem C7_amended_empty_flush {τ ρ : Type} (exec : τ → ρ)
    (s : AsyncBatchProcessor τ) (h : s.func = []) :
    s.process_tasks exec = (s, none) :=
  process_tasks_empty exec s h

theorem C7_amended_empty_flush_witness :
    AsyncBatchProcessor.process_tasks (fun n : Nat => n)
        ({ limit := 5, func := [] } : AsyncBatchProcessor Nat)
      = ({ limit := 5, func := [] }, none) :=
  C7_amended_empty_flush (fun n : Nat => n) { limit := 5, func := [] } rfl

/-- C3: a non-empty flush returns exactly the submission-order list of the
task results, and in the operational completion-order model the same list is
obtained for every schedule in which each submitted task completes,
regardless of the order of completion. -/
theorem C3_flush_order {τ ρ : Type} (exec : τ → ρ) (s : AsyncBatchProcessor τ)
    (sched : List Nat) (hne : s.func ≠ [])
    (hcov : ∀ j, j < s.func.length → j ∈ sched) :
    (s.process_tasks exec).2 = some (s.func.map exec) ∧
    runSched (s.func.map exec) sched
        (List.replicate s.func.length (none : Option ρ))
      = (s.func.map exec).map some := by
  constructor
  · rw [process_tasks_nonempty exec s hne]
  · have h := runSched_complete (s.func.map exec) sched (by simpa using hcov)
    simpa using h

theorem C3_flush_order_witness :
    (AsyncBatchProcessor.process_tasks (fun n : Nat => n * 10)
        ({ limit := 5, func := [1, 2, 3] } : AsyncBatchProcessor Nat)).2
      = some [10, 20, 30] ∧
    runSched ([1, 2, 3].map (fun n : Nat => n * 10)) [2, 0, 1]
        (List.replicate 3 (none : Option Nat))
      = [some 10, some 20, some 30] := by
  have h := C3_flush_order (fun n : Nat => n * 10)
      ({ limit := 5, func := [1, 2, 3] } : AsyncBatchProcessor Nat) [2, 0, 1]
      (by decide) (by decide)
  simpa using h

/-- C4: submitting K tasks one at a time to a fresh executor with limit
L ≥ 1 and then performing the final explicit flush yields exactly
ceil(K / L) flushes that process tasks: every auto-flush batch has exactly L
tasks, and the final explicit flush handles K mod L tasks, processing
nothing when K mod L = 0. -/
theorem C4_flush_count {τ ρ : Type} (exec : τ → ρ) (L : Nat) (hL : 1 ≤ L)
    (tasks : List τ) :
    (∀ b ∈ (runSubmissions exec { limit := L, func := [] } tasks).2,
      b.length = L) ∧
    (runSubmissions exec { limit := L, func := [] } tasks).2.length
      = tasks.length / L ∧
    (tasks.length % L = 0 →
      ((runSubmissions exec { limit := L, func := [] } tasks).1.process_tasks
        exec).2 = none) ∧
    (tasks.length % L ≠ 0 → ∃ b,
      ((runSubmissions exec { limit := L, func := [] } tasks).1.process_tasks
        exec).2 = some b ∧ b.length = tasks.length % L) ∧
    (runSubmissions exec { limit := L, func := [] } tasks).2.length
        + (if tasks.length % L = 0 then 0 else 1)
      = (tasks.length + L - 1) / L := by
  obtain ⟨h1, h2, h3, h4⟩ :=
    runSubmissions_spec exec L hL tasks [] (by simpa using hL)
  simp only [List.length_nil, Nat.zero_add] at h2 h3
  refine ⟨h4, h3, ?_, ?_, ?_⟩
  · intro hz
    have hfe :
        (runSubmissions exec { limit := L, func := [] } tasks).1.func = [] := by
      rw [← List.length_eq_zero, h2, hz]
    rw [process_tasks_empty exec _ hfe]
  · intro hnz
    have hfne :
        (runSubmissions exec { limit := L, func := [] } tasks).1.func ≠ [] := by
      intro hempty
      apply hnz
      have h5 := h2
      rw [hempty] at h5
      simpa using h5.symm
    rw [process_tasks_nonempty exec _ hfne]
    refine ⟨_, rfl, ?_⟩
    simp [h2]
  · rw [h3]
    exact ceil_div_split tasks.length L hL

theorem C4_flush_count_witness :
    (runSubmissions (fun n : Nat => n) { limit := 2, func := [] }
        [0, 1, 2, 3, 4]).2.length + 1 = 3 := by
  have h := C4_flush_count (fun n : Nat => n) 2 (by decide) [0, 1, 2, 3, 4]
  simpa using h.2.2.2.2

/-- C9: with positive limit L, the pending queue never exceeds L: between
submissions against a fresh executor it always holds fewer than L tasks; a
submission whose append brings the queue length to exactly L performs the
flush within that same submit and returns the flush result, while any
submission below the threshold only appends and returns nothing. -/
theorem C9_queue_bound {τ ρ : Type} (exec : τ → ρ) (L : Nat) (hL : 1 ≤ L) :
    (∀ ts : List τ,
      (runSubmissions exec { limit := L, func := [] } ts).1.func.length < L) ∧
    (∀ (s : AsyncBatchProcessor τ) (t : τ), s.limit = L →
      s.func.length + 1 < L →
      s.add_task exec t = ({ s with func := s.func ++ [t] }, none)) ∧
    (∀ (s : AsyncBatchProcessor τ) (t : τ), s.limit = L →
      s.func.length + 1 = L →
      s.add_task exec t
        = ({ s with func := [] }, some ((s.func ++ [t]).map exec))) := by
  refine ⟨?_, ?_, ?_⟩
  · intro ts
    obtain ⟨h1, h2, h3, h4⟩ :=
      runSubmissions_spec exec L hL ts [] (by simpa using hL)
    simp only [List.length_nil, Nat.zero_add] at h2
    rw [h2]
    exact Nat.mod_lt _ (by omega)
  · intro s t hsl hlt
    exact add_task_below exec s t (by omega)
  · intro s t hsl heq
    exact add_task_flush exec s t (by omega)

theorem C9_queue_bound_witness :
    (runSubmissions (fun n : Nat => n) { limit := 3, func := [] }
        [0, 1, 2, 3]).1.func.length < 3 ∧
    AsyncBatchProcessor.add_task (fun n : Nat => n)
        ({ limit := 3, func := [0] } : AsyncBatchProcessor Nat) 7
      = ({ limit := 3, func := [0, 7] }, none) ∧
    AsyncBatchProcessor.add_task (fun n : Nat => n)
        ({ limit := 3, func := [0, 1] } : AsyncBatchProcessor Nat) 7
      = ({ limit := 3, func := [] }, some [0, 1, 7]) := by
  have h := C9_queue_bound (fun n : Nat => n) 3 (by decide)
  refine ⟨h.1 [0, 1, 2, 3], ?_, ?_⟩
  · have h2 := h.2.1 { limit := 3, func := [0] } 7 rfl (by decide)
    simpa using h2
  · have h3 := h.2.2 { limit := 3, func := [0, 1] } 7 rfl (by decide)
    simpa using h3

lemma call_envFailAt_hit (env : Env) (a : Value) (fname : String)
    (args : List Value) :
    ETHContractFunctions.call (envFailAt env a fname) { address := a } fname args
      = .str "NotFound" := by
  simp [ETHContractFunctions.call, envFailAt]

lemma call_envFailAt_other (env : Env) (a : Value) (fname : String)
    (b : Value) (g : String) (args : List Value) (h : ¬(b = a ∧ g = fname)) :
    ETHContractFunctions.call (envFailAt env a fname) { address := b } g args
      = ETHContractFunctions.call env { address := b } g args := by
  have hb : (decide (b = a) && decide (g = fname)) = false := by
    by_cases h1 : b = a
    · by_cases h2 : g = fname
      · exact absurd ⟨h1, h2⟩ h
      · simp [h1, h2]
    · simp [h1]
  simp [ETHContractFunctions.call, envFailAt, hb]

/-- C5: when the factory reports allPairsLength = N, async_get_pairs
produces exactly N rows in ascending pair-index order 0..N-1; concretely,
with N = 3 and limit 2 there is exactly one auto-flush of 2 records followed
by a final flush of 1 record and the table has 3 rows, and with N = 0 the
table has 0 rows with no flush processing anything. -/
theorem C5_discovery_rows (env : Env) (fa : Value) (n L : Nat) (_hL : 1 ≤ L)
    (h : env fa "allPairsLength" [] = .ok (.nat n)) :
    ((async_get_pairs env fa L).result
        = .ok ((List.range n).map (fun i =>
            (buildPairRecord env { address := fa } (.nat i)).1)) ∧
      ∃ rows, (async_get_pairs env fa L).result = .ok rows ∧
        rows.length = n) ∧
    ((async_get_pairs (sampleEnv 3) (.str "F") 2).autoFlushes = [2] ∧
      (async_get_pairs (sampleEnv 3) (.str "F") 2).finalFlush = 1 ∧
      ∃ rows, (async_get_pairs (sampleEnv 3) (.str "F") 2).result = .ok rows ∧
        rows.length = 3) ∧
    ((async_get_pairs (sampleEnv 0) (.str "F") 2).result = .ok [] ∧
      (async_get_pairs (sampleEnv 0) (.str "F") 2).autoFlushes = [] ∧
      (async_get_pairs (sampleEnv 0) (.str "F") 2).finalFlush = 0) := by
  have hcall : ETHContractFunctions.call env { address := fa }
      "allPairsLength" [] = .nat n := by
    simp [ETHContractFunctions.call, h]
  have hgen : (async_get_pairs env fa L).result
      = .ok ((List.range n).map (fun i =>
          (buildPairRecord env { address := fa } (.nat i)).1)) := by
    have hjoin := runSubmissions_join
      (fun i => async_get_pair_by_index env (some { address := fa }) (.nat i) none)
      L (List.range n) []
    simp only [List.nil_append] at hjoin
    simp only [async_get_pairs, proxyCall, hcall]
    rw [hjoin]
    simp only [List.map_map]
    have hfuns : (Prod.fst ∘ fun i =>
        async_get_pair_by_index env (some { address := fa }) (.nat i) none)
        = fun i => Except.ok (α := PairRecord)
            (buildPairRecord env { address := fa } (.nat i)).1 := by
      funext i
      simp [async_get_pair_by_index_some]
    rw [hfuns, gatherE_map_ok]
  refine ⟨⟨hgen, ?_⟩, ⟨by decide, by decide, ?_⟩, by decide, by decide, by decide⟩
  · exact ⟨_, hgen, by simp⟩
  · exact ⟨_, rfl, by decide⟩

theorem C5_discovery_rows_witness :
    ∃ rows, (async_get_pairs (sampleEnv 1) (.str "F") 5).result = .ok rows ∧
      rows.length = 1 :=
  (C5_discovery_rows (sampleEnv 1) (.str "F") 1 5 (by decide) rfl).1.2

/-- C10: when the preliminary allPairsLength call fails remotely,
async_get_pairs neither returns a table nor propagates the remote-call
error: the proxy degrades the failure to the sentinel string, and iterating
`range` over that string raises TypeError before any pair-index task is
submitted — the trace holds only the single allPairsLength call and no flush
processed anything. -/
theorem C10_length_failure_type_error (env : Env) (fa : Value) (L : Nat)
    (h : env fa "allPairsLength" [] = .error ()) :
    async_get_pairs env fa L
      = { result := .error
            (.typeError "str object cannot be interpreted as an integer"),
          trace := [(fa, "allPairsLength", [])],
          autoFlushes := [], finalFlush := 0 } := by
  have hcall : ETHContractFunctions.call env { address := fa }
      "allPairsLength" [] = .str "NotFound" := by
    simp [ETHContractFunctions.call, h]
  simp [async_get_pairs, proxyCall, hcall]

theorem C10_length_failure_type_error_witness :
    async_get_pairs envFacFail (.str "F") 5
      = { result := .error
            (.typeError "str object cannot be interpreted as an integer"),
          trace := [(.str "F", "allPairsLength", [])],
          autoFlushes := [], finalFlush := 0 } :=
  C10_length_failure_type_error envFacFail (.str "F") 5 rfl

/-- C1 counterexample: factory-level failures are degraded to the sentinel
exactly like per-field lookups, contrary to the claim. With every remote
call failing, allPairsLength through the proxy yields "NotFound" instead of
propagating, and a failing allPairs inside async_get_pair_by_index still
yields a completed record (with sentinel pair address) rather than aborting
the flush. -/
theorem C1_counterexample :
    ETHContractFunctions.call envFacFail { address := .str "F" }
        "allPairsLength" [] = .str "NotFound" ∧
    (async_get_pair_by_index envFacFail (some { address := .str "F" })
        (.nat 0) none).1
      = .ok { pair_address := .str "NotFound", pair_name := .str "NotFound",
              token0_address := .str "NotFound", token0_name := .str "NotFound",
              token1_address := .str "NotFound",
              token1_name := .str "NotFound" } :=
  ⟨rfl, rfl⟩

/-- C1 amended: every remote failure, the factory-level allPairsLength and
allPairs calls included, is degraded to the sentinel "NotFound" at the
RemoteCallProxy boundary; a failing allPairs therefore produces a degraded
record without aborting the flush, and a failing allPairsLength yields the
sentinel that later aborts the run with a TypeError at the range
construction rather than with a propagated remote-call error. -/
theorem C1_amended_factory_degradation (env : Env) (fc : ETHContractFunctions)
    (u : Value) (h : env fc.address "allPairs" [u] = .error ()) :
    (∀ e, env fc.address "allPairsLength" [] = .error e →
      fc.call env "allPairsLength" [] = .str "NotFound") ∧
    (async_get_pair_by_index env (some fc) u none).1
      = .ok (buildPairRecord env fc u).1 ∧
    (buildPairRecord env fc u).1.pair_address = .str "NotFound" := by
  refine ⟨?_, ?_, ?_⟩
  · intro e he
    simp [ETHContractFunctions.call, he]
  · rw [async_get_pair_by_index_some]
  · simp [buildPairRecord, proxyCall, ETHContractFunctions.call, h]

theorem C1_amended_factory_degradation_witness :
    ETHContractFunctions.call envFacFail { address := .str "G" }
        "allPairsLength" [] = .str "NotFound" ∧
    (buildPairRecord envFacFail { address := .str "G" } (.nat 1)).1.pair_address
      = .str "NotFound" := by
  have h := C1_amended_factory_degradation envFacFail { address := .str "G" }
      (.nat 1) rfl
  exact ⟨h.1 () rfl, h.2.2⟩

/-- C8 counterexample: with a call client that is the fully succeeding
`envOk` except that the single call token0() on pair "P0" fails, the failing
call's own field token0_address does get the sentinel and the record is
still produced, but the dependent field token0_name is NOT unaffected: the
token-name lookup is redirected to the sentinel address and its value
changes from "TokenZero" to "NotFound", refuting the claim that all other
fields are unaffected. -/
theorem C8_counterexample :
    (async_get_pair_by_index envT0Fail (some { address := .str "F" })
        (.nat 0) none).1
      = .ok { pair_address := .str "P0", pair_name := .str "PairName",
              token0_address := .str "NotFound", token0_name := .str "NotFound",
              token1_address := .str "T1", token1_name := .str "TokenOne" } ∧
    (async_get_pair_by_index envOk (some { address := .str "F" })
        (.nat 0) none).1
      = .ok { pair_address := .str "P0", pair_name := .str "PairName",
              token0_address := .str "T0", token0_name := .str "TokenZero",
              token1_address := .str "T1", token1_name := .str "TokenOne" } ∧
    Value.str "NotFound" ≠ Value.str "TokenZero" :=
  ⟨rfl, rfl, by decide⟩

/-- C8 amended: every record produced by async_get_pair_by_index has exactly
the six string-valued fields and is produced even when sub-calls fail; a
failed leaf lookup (the pair name or either token name) puts the sentinel in
its own field and leaves every other field unaffected, whereas a failed
token0/token1 lookup puts the sentinel in the address field and additionally
redirects the dependent token-name lookup to the sentinel address. -/
theorem C8_amended_record_integrity (env : Env) (fc : ETHContractFunctions)
    (u : Value) (pa t0a t1a : Value)
    (hpa : ETHContractFunctions.call env { address := fc.address }
        "allPairs" [u] = pa)
    (ht0 : ETHContractFunctions.call env { address := pa } "token0" [] = t0a)
    (ht1 : ETHContractFunctions.call env { address := pa } "token1" [] = t1a)
    (hne0 : t0a ≠ pa) (hne1 : t1a ≠ pa) (hne2 : t1a ≠ t0a) :
    (∀ (env0 : Env) (fa0 : Option Value) (u0 : Value), ∃ r,
      (async_get_pair_by_index env0 (some fc) u0 fa0).1 = .ok r) ∧
    (buildPairRecord (envFailAt env pa "name") fc u).1
      = { (buildPairRecord env fc u).1 with pair_name := .str "NotFound" } ∧
    (buildPairRecord (envFailAt env t0a "name") fc u).1
      = { (buildPairRecord env fc u).1 with token0_name := .str "NotFound" } ∧
    (buildPairRecord (envFailAt env t1a "name") fc u).1
      = { (buildPairRecord env fc u).1 with token1_name := .str "NotFound" } ∧
    (buildPairRecord (envFailAt env pa "token0") fc u).1
      = { (buildPairRecord env fc u).1 with
          token0_address := .str "NotFound",
          token0_name := ETHContractFunctions.call env
            { address := .str "NotFound" } "name" [] } ∧
    (buildPairRecord (envFailAt env pa "token1") fc u).1
      = { (buildPairRecord env fc u).1 with
          token1_address := .str "NotFound",
          token1_name := ETHContractFunctions.call env
            { address := .str "NotFound" } "name" [] } := by
  refine ⟨?_, ?_, ?_, ?_, ?_, ?_⟩
  · intro env0 fa0 u0
    exact ⟨_, by rw [async_get_pair_by_index_some]⟩
  · have hpa' : ETHContractFunctions.call (envFailAt env pa "name")
        { address := fc.address } "allPairs" [u] = pa := by
      rw [call_envFailAt_other env pa "name" fc.address "allPairs" [u]
        (by simp), hpa]
    have ht0' : ETHContractFunctions.call (envFailAt env pa "name")
        { address := pa } "token0" [] = t0a := by
      rw [call_envFailAt_other env pa "name" pa "token0" [] (by simp), ht0]
    have ht1' : ETHContractFunctions.call (envFailAt env pa "name")
        { address := pa } "token1" [] = t1a := by
      rw [call_envFailAt_other env pa "name" pa "token1" [] (by simp), ht1]
    have hn0 : ETHContractFunctions.call (envFailAt env pa "name")
        { address := t0a } "name" []
        = ETHContractFunctions.call env { address := t0a } "name" [] :=
      call_envFailAt_other env pa "name" t0a "name" []
        (fun hq => hne0 hq.1)
    have hn1 : ETHContractFunctions.call (envFailAt env pa "name")
        { address := t1a } "name" []
        = ETHContractFunctions.call env { address := t1a } "name" [] :=
      call_envFailAt_other env pa "name" t1a "name" []
        (fun hq => hne1 hq.1)
    simp only [buildPairRecord, async_get_pair_info, async_get_token_info,
      proxyCall]
    rw [hpa', hpa, ht0', ht1', ht0, ht1, hn0, hn1,
      call_envFailAt_hit env pa "name" []]
  · have hpa' : ETHContractFunctions.call (envFailAt env t0a "name")
        { address := fc.address } "allPairs" [u] = pa := by
      rw [call_envFailAt_other env t0a "name" fc.address "allPairs" [u]
        (by simp), hpa]
    have hnm : ETHContractFunctions.call (envFailAt env t0a "name")
        { address := pa } "name" []
        = ETHContractFunctions.call env { address := pa } "name" [] :=
      call_envFailAt_other env t0a "name" pa "name" []
        (fun hq => hne0 hq.1.symm)
    have ht0' : ETHContractFunctions.call (envFailAt env t0a "name")
        { address := pa } "token0" [] = t0a := by
      rw [call_envFailAt_other env t0a "name" pa "token0" [] (by simp), ht0]
    have ht1' : ETHContractFunctions.call (envFailAt env t0a "name")
        { address := pa } "token1" [] = t1a := by
      rw [call_envFailAt_other env t0a "name" pa "token1" [] (by simp), ht1]
    have hn1 : ETHContractFunctions.call (envFailAt env t0a "name")
        { address := t1a } "name" []
        = ETHContractFunctions.call env { address := t1a } "name" [] :=
      call_envFailAt_other env t0a "name" t1a "name" []
        (fun hq => hne2 hq.1)
    simp only [buildPairRecord, async_get_pair_info, async_get_token_info,
      proxyCall]
    rw [hpa', hpa, ht0', ht1', ht0, ht1, hnm, hn1,
      call_envFailAt_hit env t0a "name" []]
  · have hpa' : ETHContractFunctions.call (envFailAt env t1a "name")
        { address := fc.address } "allPairs" [u] = pa := by
      rw [call_envFailAt_other env t1a "name" fc.address "allPairs" [u]
        (by simp), hpa]
    have hnm : ETHContractFunctions.call (envFailAt env t1a "name")
        { address := pa } "name" []
        = ETHContractFunctions.call env { address := pa } "name" [] :=
      call_envFailAt_other env t1a "name" pa "name" []
        (fun hq => hne1 hq.1.symm)
    have ht0' : ETHContractFunctions.call (envFailAt env t1a "name")
        { address := pa } "token0" [] = t0a := by
      rw [call_envFailAt_other env t1a "name" pa "token0" [] (by simp), ht0]
    have ht1' : ETHContractFunctions.call (envFailAt env t1a "name")
        { address := pa } "token1" [] = t1a := by
      rw [call_envFailAt_other env t1a "name" pa "token1" [] (by simp), ht1]
    have hn0 : ETHContractFunctions.call (envFailAt env t1a "name")
        { address := t0a } "name" []
        = ETHContractFunctions.call env { address := t0a } "name" [] :=
      call_envFailAt_other env t1a "name" t0a "name" []
        (fun hq => hne2 hq.1.symm)
    simp only [buildPairRecord, async_get_pair_info, async_get_token_info,
      proxyCall]
    rw [hpa', hpa, ht0', ht1', ht0, ht1, hnm, hn0,
      call_envFailAt_hit env t1a "name" []]
  · have hpa' : ETHContractFunctions.call (envFailAt env pa "token0")
        { address := fc.address } "allPairs" [u] = pa := by
      rw [call_envFailAt_other env pa "token0" fc.address "allPairs" [u]
        (by simp), hpa]
    have hnm : ETHContractFunctions.call (envFailAt env pa "token0")
        { address := pa } "name" []
        = ETHContractFunctions.call env { address := pa } "name" [] :=
      call_envFailAt_other env pa "token0" pa "name" [] (by simp)
    have ht1' : ETHContractFunctions.call (envFailAt env pa "token0")
        { address := pa } "token1" [] = t1a := by
      rw [call_envFailAt_other env pa "token0" pa "token1" [] (by simp), ht1]
    have hn0 : ETHContractFunctions.call (envFailAt env pa "token0")
        { address := .str "NotFound" } "name" []
        = ETHContractFunctions.call env { address := .str "NotFound" }
            "name" [] :=
      call_envFailAt_other env pa "token0" (.str "NotFound") "name" []
        (by simp)
    have hn1 : ETHContractFunctions.call (envFailAt env pa "token0")
        { address := t1a } "name" []
        = ETHContractFunctions.call env { address := t1a } "name" [] :=
      call_envFailAt_other env pa "token0" t1a "name" [] (by simp)
    simp only [buildPairRecord, async_get_pair_info, async_get_token_info,
      proxyCall]
    rw [hpa', hpa, call_envFailAt_hit env pa "token0" [], ht1', ht1, hnm,
      hn0, hn1]
  · have hpa' : ETHContractFunctions.call (envFailAt env pa "token1")
        { address := fc.address } "allPairs" [u] = pa := by
      rw [call_envFailAt_other env pa "token1" fc.address "allPairs" [u]
        (by simp), hpa]
    have hnm : ETHContractFunctions.call (envFailAt env pa "token1")
        { address := pa } "name" []
        = ETHContractFunctions.call env { address := pa } "name" [] :=
      call_envFailAt_other env pa "token1" pa "name" [] (by simp)
    have ht0' : ETHContractFunctions.call (envFailAt env pa "token1")
        { address := pa } "token0" [] = t0a := by
      rw [call_envFailAt_other env pa "token1" pa "token0" [] (by simp), ht0]
    have hn1 : ETHContractFunctions.call (envFailAt env pa "token1")
        { address := .str "NotFound" } "name" []
        = ETHContractFunctions.call env { address := .str "NotFound" }
            "name" [] :=
      call_envFailAt_other env pa "token1" (.str "NotFound") "name" []
        (by simp)
    have hn0 : ETHContractFunctions.call (envFailAt env pa "token1")
        { address := t0a } "name" []
        = ETHContractFunctions.call env { address := t0a } "name" [] :=
      call_envFailAt_other env pa "token1" t0a "name" [] (by simp)
    simp only [buildPairRecord, async_get_pair_info, async_get_token_info,
      proxyCall]
    rw [hpa', hpa, call_envFailAt_hit env pa "token1" [], ht0', ht0, hnm,
      hn0, hn1]

theorem C8_amended_record_integrity_witness :
    (buildPairRecord (envFailAt envOk (.str "P0") "name")
        { address := .str "F" } (.nat 0)).1
      = { (buildPairRecord envOk { address := .str "F" } (.nat 0)).1 with
          pair_name := .str "NotFound" } ∧
    (buildPairRecord (envFailAt envOk (.str "T0") "name")
        { address := .str "F" } (.nat 0)).1
      = { (buildPairRecord envOk { address := .str "F" } (.nat 0)).1 with
          token0_name := .str "NotFound" } ∧
    (buildPairRecord (envFailAt envOk (.str "P0") "token0")
        { address := .str "F" } (.nat 0)).1
      = { (buildPairRecord envOk { address := .str "F" } (.nat 0)).1 with
          token0_address := .str "NotFound",
          token0_name := ETHContractFunctions.call envOk
            { address := .str "NotFound" } "name" [] } := by
  have h := C8_amended_record_integrity envOk { address := .str "F" } (.nat 0)
      (.str "P0") (.str "T0") (.str "T1") rfl rfl rfl (by decide) (by decide)
      (by decide)
  exact ⟨h.2.1, h.2.2.1, h.2.2.2.2.1⟩
